import Mathlib

/-!
Verification of the bounded-concurrency mirror orchestrator of
`k8scat/mirror-git-go` against its natural-language specification.

The embedding follows `cmd/mirror-git/main.go` (functions `main`,
`runMirror`, `mirrorRepo`), `pkg/types/repo.go`, `pkg/local` and
`pkg/e_gitee_v8/e_gitee_v8.go`.  External interactions (provider HTTP
calls, the two spawned git commands, context cancellation) are supplied
by per-task oracles; the concurrent orchestrator is a small-step
transition system quantified over all interleavings.
-/

namespace MirrorGit

/-- `types.RepoImpl` from `pkg/types/repo.go`. -/
structure RepoImpl where
  Path : String
  PathWithNamespace : String
  Desc : String
  Private : Bool
deriving DecidableEq, Repr, Inhabited

/-- `types.NewRepo` from `pkg/types/repo.go`. -/
def NewRepo (path pathWithNamespace desc : String) (priv : Bool) : RepoImpl :=
  ⟨path, pathWithNamespace, desc, priv⟩

/-- Result of a Go call: a normal return value, or a runtime panic
carrying the rendered panic value. -/
inductive GoResult (α : Type) where
  | ret : α → GoResult α
  | panicked : String → GoResult α
deriving DecidableEq, Repr

/-- Observable external effects of one mirror task (and of `main`'s
final cleanup): spawned git commands, target-provider calls and
directory removal. -/
inductive Effect where
  | cloneCmd (bare : Bool) (url dir : String)
  | existsCheck (name : String)
  | createRepo (name desc : String) (priv : Bool)
  | resolvePushAddr (name : String)
  | pushCmd (addr dir : String)
  | removeDir (dir : String)
deriving DecidableEq, Repr

/-- `true` on the `removeDir` effect only. -/
def Effect.isRemoveDir : Effect → Bool
  | .removeDir _ => true
  | _ => false

/-- Oracles for one task of `mirrorRepo`: the outcome of `ctx.Err()` at
task start, the target's `Name()`, the two resolved git addresses, the
timestamp used in the scratch directory name, and the results of the
clone command, `IsRepoExist`, `CreateRepo` and the push command.  Each
provider call and command may also panic (`GoResult.panicked`). -/
structure TaskEnv where
  ctxErr : Option String
  targetName : String
  sourceAddr : String
  pushAddr : String
  timestamp : String
  cloneRun : GoResult (Option String)
  isRepoExist : GoResult (Except String Bool)
  createRepo : GoResult (Option String)
  pushRun : GoResult (Option String)
deriving Repr

instance : Inhabited TaskEnv :=
  ⟨{ ctxErr := none, targetName := "", sourceAddr := "", pushAddr := "",
     timestamp := "", cloneRun := .ret none, isRepoExist := .ret (.ok true),
     createRepo := .ret none, pushRun := .ret none }⟩

/-- The push phase of `mirrorRepo` (main.go lines 194-209): resolve the
target address; if non-empty, run `git push --mirror` in the clone
directory. -/
def pushPhase (env : TaskEnv) (repo : RepoImpl) (repoDir : String)
    (tr : List Effect) : GoResult (Option String) × List Effect :=
  let tr1 := tr ++ [Effect.resolvePushAddr repo.Path]
  if env.pushAddr ≠ "" then
    let tr2 := tr1 ++ [Effect.pushCmd env.pushAddr repoDir]
    match env.pushRun with
    | .panicked p => (.panicked p, tr2)
    | .ret (some e) => (.ret (some ("push failed: " ++ e)), tr2)
    | .ret none => (.ret none, tr2)
  else
    (.ret none, tr1)

/-- Body of `mirrorRepo` (main.go lines 152-213), before the deferred
`recover`.  Returns the Go error (`none` = nil) or a panic, paired with
the trace of external effects. -/
def mirrorRepoBody (env : TaskEnv) (repo : RepoImpl) (workDir : String) :
    GoResult (Option String) × List Effect :=
  match env.ctxErr with
  | some e => (.ret (some ("context cancelled before starting: " ++ e)), [])
  | none =>
    let repoDir := workDir ++ "/" ++ repo.Path ++ "_" ++ env.timestamp
    let bare := env.targetName ≠ "local"
    let tr1 := [Effect.cloneCmd (decide bare) env.sourceAddr repoDir]
    match env.cloneRun with
    | .panicked p => (.panicked p, tr1)
    | .ret (some e) => (.ret (some ("clone failed: " ++ e)), tr1)
    | .ret none =>
      let tr2 := tr1 ++ [Effect.existsCheck repo.Path]
      match env.isRepoExist with
      | .panicked p => (.panicked p, tr2)
      | .ret (.error e) => (.ret (some ("check exist failed: " ++ e)), tr2)
      | .ret (.ok b) =>
        if b then
          pushPhase env repo repoDir tr2
        else
          let tr3 := tr2 ++ [Effect.createRepo repo.Path repo.Desc repo.Private]
          match env.createRepo with
          | .panicked p => (.panicked p, tr3)
          | .ret (some e) => (.ret (some ("create failed: " ++ e)), tr3)
          | .ret none => pushPhase env repo repoDir tr3

/-- `mirrorRepo` (main.go lines 145-214): runs the body under the
deferred `recover` that converts a panic `p` into the error
`mirror panic: p`. -/
def mirrorRepo (env : TaskEnv) (repo : RepoImpl) (workDir : String) :
    Option String × List Effect :=
  match mirrorRepoBody env repo workDir with
  | (.ret r, tr) => (r, tr)
  | (.panicked p, tr) => (some ("mirror panic: " ++ p), tr)

/-- Tail of `main` (main.go lines 71-82): if `runMirror` returned an
error, `main` exits without cleanup; otherwise it removes the run's
root work directory unless the target type is `"local"`. -/
def mainCleanup (targetType workDir : String) (mirrorErr : Bool) : List Effect :=
  if mirrorErr then []
  else if targetType ≠ "local" then [Effect.removeDir workDir] else []

namespace Local

/-- `Local.Name` from `pkg/local`. -/
def Name : String := "local"

/-- `Local.GetRepoAddr` from `pkg/local`: always the empty string. -/
def GetRepoAddr (_ : String) : String := ""

/-- `Local.IsRepoExist` from `pkg/local`: always `(true, nil)`. -/
def IsRepoExist (_ : String) : Bool × Option String := (true, none)

/-- `Local.CreateRepo` from `pkg/local`: always `nil`. -/
def CreateRepo (_ _ : String) (_ : Bool) : Option String := none

end Local

/-- The fields of `e_gitee_v8.Repo` that `listRepos` reads when building
its result (`pkg/e_gitee_v8/e_gitee_v8.go`); `Public` is the visibility
field of the provider response. -/
structure EGiteeRepo where
  Name : String
  Path : String
  PathWithNamespace : String
  Public : Int
  Description : String
deriving DecidableEq, Repr

/-- Result construction of `EnterpriseGiteeV8.listRepos`
(`e_gitee_v8.go` lines 159-164): each parsed repository is mapped to
`types.NewRepo(r.Path, r.PathWithNamespace, r.Description, true)`. -/
def eGiteeV8ListReposResult (repos : List EGiteeRepo) : List RepoImpl :=
  repos.map (fun r => NewRepo r.Path r.PathWithNamespace r.Description true)

/-- `maxWorkers` of `runMirror` (main.go line 101). -/
def maxWorkers : Nat := 5

/-- Control position of the `runMirror` goroutine (main.go lines 85-143):
`listing` at the initial `ListRepos` call; `checking` at the top of an
admission-loop iteration (the `select` on `ctx.Done()`); `acquiring`
blocked on `sem <- struct{}{}`; `draining` at `waitForCompletion`;
`finished` after `return nil`; `fatal` after the listing-error return. -/
inductive Phase where
  | listing
  | checking
  | acquiring
  | draining
  | finished
  | fatal
deriving DecidableEq, Repr

/-- Run parameters: the result of `sourceGit.ListRepos()`, the oracle
environment of each spawned task (indexed by admission position), and
the run's work directory. -/
structure OrchParams where
  listResult : Except String (List RepoImpl)
  envs : Nat → TaskEnv
  workDir : String

/-- The listed repositories (empty when listing failed). -/
def OrchParams.repos (P : OrchParams) : List RepoImpl :=
  P.listResult.toOption.getD []

/-- Number of listed repositories. -/
def OrchParams.N (P : OrchParams) : Nat := P.repos.length

/-- The `i`-th listed repository. -/
def OrchParams.repoAt (P : OrchParams) (i : Nat) : RepoImpl :=
  P.repos.getD i default

/-- The error returned by task `i`'s `mirrorRepo` call under its oracle
environment (`none` = success), as consumed by the goroutine body at
main.go lines 120-125. -/
def OrchParams.outcome (P : OrchParams) (i : Nat) : Option String :=
  (mirrorRepo (P.envs i) (P.repoAt i) P.workDir).fst

/-- Shared state of a `runMirror` run.  `running` holds the admission
indices of tasks that hold a semaphore slot and have not completed;
`doneFail` is `failedRepos` (with the admission index kept alongside
the recorded reason); `doneOk` records tasks whose `mirrorRepo`
returned nil; `cancelled` is whether the global deadline has expired;
`stoppedByCancel` is whether the admission loop exited through the
`ctx.Done()` branch; `retErr` is `runMirror`'s return value once set. -/
structure OState where
  phase : Phase
  nextIdx : Nat
  running : List Nat
  doneFail : List (Nat × String)
  doneOk : List Nat
  cancelled : Bool
  stoppedByCancel : Bool
  retErr : Option String
deriving DecidableEq, Repr

/-- Initial state: about to call `ListRepos`. -/
def initState : OState :=
  ⟨.listing, 0, [], [], [], false, false, none⟩

/-- Completion of the goroutine of task `i`: under the `failedRepos`
mutex, record the outcome (append to `failedRepos` on error), then
release the semaphore slot. -/
def completeState (P : OrchParams) (s : OState) (i : Nat) : OState :=
  match P.outcome i with
  | some r =>
    { s with running := s.running.erase i, doneFail := s.doneFail ++ [(i, r)] }
  | none =>
    { s with running := s.running.erase i, doneOk := s.doneOk ++ [i] }

/-- One atomic step of `runMirror` or of one of its task goroutines,
interleaved arbitrarily with deadline expiry. -/
inductive Step (P : OrchParams) : OState → OState → Prop where
  /-- The global deadline expires (context becomes done). -/
  | expire (s : OState) : Step P s { s with cancelled := true }
  /-- `ListRepos` returned a repository list (main.go lines 86-96). -/
  | listOk (s : OState) (repos : List RepoImpl) :
      s.phase = .listing → P.listResult = .ok repos →
      Step P s { s with phase := .checking }
  /-- `ListRepos` failed: `runMirror` returns the wrapped error at once
  (main.go lines 87-90). -/
  | listFatal (s : OState) (e : String) :
      s.phase = .listing → P.listResult = .error e →
      Step P s { s with phase := .fatal,
                        retErr := some ("list repos failed: " ++ e) }
  /-- The `select` at the loop top finds the context alive and falls
  through to the semaphore acquire (main.go lines 108-113). -/
  | checkPass (s : OState) :
      s.phase = .checking → s.nextIdx < P.N → s.cancelled = false →
      Step P s { s with phase := .acquiring }
  /-- The `select` finds the context cancelled and jumps to
  `waitForCompletion` (main.go lines 109-111). -/
  | checkCancel (s : OState) :
      s.phase = .checking → s.nextIdx < P.N → s.cancelled = true →
      Step P s { s with phase := .draining, stoppedByCancel := true }
  /-- The admission loop has consumed every descriptor and falls
  through to `waitForCompletion` (main.go lines 106, 129). -/
  | loopDone (s : OState) :
      s.phase = .checking → s.nextIdx = P.N →
      Step P s { s with phase := .draining }
  /-- `sem <- struct{}{}` succeeds (a slot is free) and the goroutine
  for the current descriptor is spawned (main.go lines 115-126). -/
  | acquire (s : OState) :
      s.phase = .acquiring → s.running.length < maxWorkers →
      Step P s { s with phase := .checking,
                        running := s.running ++ [s.nextIdx],
                        nextIdx := s.nextIdx + 1 }
  /-- An in-flight task goroutine finishes: it records its outcome under
  the mutex and releases its slot (main.go lines 117-126). -/
  | complete (s : OState) (i : Nat) :
      i ∈ s.running → Step P s (completeState P s i)
  /-- The `waitForCompletion` join has re-acquired every slot, so every
  admitted task has finished; `runMirror` returns nil
  (main.go lines 129-142). -/
  | drainDone (s : OState) :
      s.phase = .draining → s.running = [] →
      Step P s { s with phase := .finished }

/-- States reachable from the initial state. -/
inductive Reachable (P : OrchParams) : OState → Prop where
  | init : Reachable P initState
  | step {s t : OState} : Reachable P s → Step P s t → Reachable P t

/-- Reflexive-transitive closure of `Step`. -/
inductive StepStar (P : OrchParams) : OState → OState → Prop where
  | refl (s : OState) : StepStar P s s
  | tail {s t u : OState} : StepStar P s t → Step P t u → StepStar P s u

/-- The admission indices that have a recorded outcome: the failed
repositories (first components of `failedRepos` entries) together with
the successes. -/
def outcomes (s : OState) : List Nat :=
  s.doneFail.map Prod.fst ++ s.doneOk

/-- Run invariant: the slot bound, exact accounting of admitted tasks,
and the phase bookkeeping tying the admission loop to listing and
cancellation. -/
structure Inv (P : OrchParams) (s : OState) : Prop where
  run_le : s.running.length ≤ maxWorkers
  perm : (outcomes s ++ s.running).Perm (List.range s.nextIdx)
  pre_run : s.phase = .listing ∨ s.phase = .fatal →
      s.nextIdx = 0 ∧ s.running = [] ∧ s.doneFail = [] ∧ s.doneOk = []
  cancel_stop : s.stoppedByCancel = true →
      s.nextIdx < P.N ∧ (s.phase = .draining ∨ s.phase = .finished)
  drain_all : s.phase = .draining ∨ s.phase = .finished →
      s.stoppedByCancel = false → s.nextIdx = P.N
  fin_run : s.phase = .finished → s.running = []
  fatal_err : s.phase = .fatal →
      ∃ e, P.listResult = .error e ∧ s.retErr = some ("list repos failed: " ++ e)
  err_phase : ∀ e, P.listResult = .error e →
      s.phase = .listing ∨ s.phase = .fatal
  ret_none : s.phase ≠ .fatal → s.retErr = none

theorem inv_init (P : OrchParams) : Inv P initState := by
  refine ⟨?_, ?_, ?_, ?_, ?_, ?_, ?_, ?_, ?_⟩ <;>
    simp [initState, outcomes, maxWorkers]

theorem outcomes_complete_perm (P : OrchParams) (s : OState) (i : Nat)
    (hi : i ∈ s.running) :
    (outcomes (completeState P s i) ++ (completeState P s i).running).Perm
      (outcomes s ++ s.running) := by
  have hrun : s.running.Perm (i :: s.running.erase i) := List.perm_cons_erase hi
  unfold completeState
  cases P.outcome i with
  | some r =>
    simp only [outcomes, List.map_append, List.map_cons, List.map_nil,
      List.append_assoc, List.singleton_append]
    refine List.Perm.append_left (s.doneFail.map Prod.fst) ?_
    exact List.perm_middle.symm.trans
      (List.Perm.append_left s.doneOk hrun.symm)
  | none =>
    simp only [outcomes, List.append_assoc, List.singleton_append]
    refine List.Perm.append_left (s.doneFail.map Prod.fst) ?_
    exact List.Perm.append_left s.doneOk hrun.symm

theorem inv_step {P : OrchParams} {s t : OState}
    (hs : Inv P s) (h : Step P s t) : Inv P t := by
  cases h with
  | expire =>
    exact ⟨hs.run_le, hs.perm, hs.pre_run, hs.cancel_stop, hs.drain_all,
      hs.fin_run, hs.fatal_err, hs.err_phase, hs.ret_none⟩
  | listOk repos h1 h2 =>
    refine ⟨hs.run_le, hs.perm, ?_, ?_, ?_, ?_, ?_, ?_, ?_⟩
    · rintro (h | h) <;> cases h
    · intro hb
      exact absurd ((hs.cancel_stop hb).2) (by rw [h1]; rintro (h | h) <;> cases h)
    · rintro (h | h) <;> cases h
    · rintro h; cases h
    · rintro h; cases h
    · intro e he; rw [h2] at he; cases he
    · intro _; exact hs.ret_none (by rw [h1]; rintro h; cases h)
  | listFatal e h1 h2 =>
    refine ⟨hs.run_le, hs.perm, ?_, ?_, ?_, ?_, ?_, ?_, ?_⟩
    · intro _; exact hs.pre_run (Or.inl h1)
    · intro hb
      exact absurd ((hs.cancel_stop hb).2) (by rw [h1]; rintro (h | h) <;> cases h)
    · rintro (h | h) <;> cases h
    · rintro h; cases h
    · intro _; exact ⟨e, h2, rfl⟩
    · intro _ _; exact Or.inr rfl
    · intro hne; exact absurd rfl hne
  | checkPass h1 h2 h3 =>
    refine ⟨hs.run_le, hs.perm, ?_, ?_, ?_, ?_, ?_, ?_, ?_⟩
    · rintro (h | h) <;> cases h
    · intro hb
      exact absurd ((hs.cancel_stop hb).2) (by rw [h1]; rintro (h | h) <;> cases h)
    · rintro (h | h) <;> cases h
    · rintro h; cases h
    · rintro h; cases h
    · intro e he
      rcases hs.err_phase e he with h | h <;> rw [h1] at h <;> cases h
    · intro _; exact hs.ret_none (by rw [h1]; rintro h; cases h)
  | checkCancel h1 h2 h3 =>
    refine ⟨hs.run_le, hs.perm, ?_, ?_, ?_, ?_, ?_, ?_, ?_⟩
    · rintro (h | h) <;> cases h
    · intro _; exact ⟨h2, Or.inl rfl⟩
    · rintro _ h; cases h
    · rintro h; cases h
    · rintro h; cases h
    · intro e he
      rcases hs.err_phase e he with h | h <;> rw [h1] at h <;> cases h
    · intro _; exact hs.ret_none (by rw [h1]; rintro h; cases h)
  | loopDone h1 h2 =>
    refine ⟨hs.run_le, hs.perm, ?_, ?_, ?_, ?_, ?_, ?_, ?_⟩
    · rintro (h | h) <;> cases h
    · intro hb
      exact absurd ((hs.cancel_stop hb).2) (by rw [h1]; rintro (h | h) <;> cases h)
    · intro _ _; exact h2
    · rintro h; cases h
    · rintro h; cases h
    · intro e he
      rcases hs.err_phase e he with h | h <;> rw [h1] at h <;> cases h
    · intro _; exact hs.ret_none (by rw [h1]; rintro h; cases h)
  | acquire h1 h2 =>
    refine ⟨?_, ?_, ?_, ?_, ?_, ?_, ?_, ?_, ?_⟩
    · simpa using h2
    · have : (outcomes s ++ (s.running ++ [s.nextIdx])) =
          (outcomes s ++ s.running) ++ [s.nextIdx] := by
        simp [List.append_assoc]
      rw [List.range_succ]
      exact this ▸ hs.perm.append_right [s.nextIdx]
    · rintro (h | h) <;> cases h
    · intro hb
      exact absurd ((hs.cancel_stop hb).2) (by rw [h1]; rintro (h | h) <;> cases h)
    · rintro (h | h) <;> cases h
    · rintro h; cases h
    · rintro h; cases h
    · intro e he
      rcases hs.err_phase e he with h | h <;> rw [h1] at h <;> cases h
    · intro _; exact hs.ret_none (by rw [h1]; rintro h; cases h)
  | complete i hi =>
    have hph : (completeState P s i).phase = s.phase := by
      unfold completeState; cases P.outcome i <;> rfl
    have hidx : (completeState P s i).nextIdx = s.nextIdx := by
      unfold completeState; cases P.outcome i <;> rfl
    have hstop : (completeState P s i).stoppedByCancel = s.stoppedByCancel := by
      unfold completeState; cases P.outcome i <;> rfl
    have hret : (completeState P s i).retErr = s.retErr := by
      unfold completeState; cases P.outcome i <;> rfl
    have herase : (completeState P s i).running = s.running.erase i := by
      unfold completeState; cases P.outcome i <;> rfl
    refine ⟨?_, ?_, ?_, ?_, ?_, ?_, ?_, ?_, ?_⟩
    · rw [herase]
      exact le_trans (s.running.erase_sublist i).length_le hs.run_le
    · rw [hidx]
      exact (outcomes_complete_perm P s i hi).trans hs.perm
    · intro hp
      rw [hph] at hp
      exact absurd hi (by rw [(hs.pre_run hp).2.1]; simp)
    · intro hb
      rw [hstop] at hb; rw [hidx, hph]
      exact hs.cancel_stop hb
    · intro hp hb
      rw [hph] at hp; rw [hstop] at hb; rw [hidx]
      exact hs.drain_all hp hb
    · intro hp
      rw [hph] at hp
      exact absurd hi (by rw [hs.fin_run hp]; simp)
    · intro hp
      rw [hph] at hp; rw [hret]
      exact hs.fatal_err hp
    · intro e he
      rw [hph]
      exact hs.err_phase e he
    · intro hne
      rw [hph] at hne; rw [hret]
      exact hs.ret_none hne
  | drainDone h1 h2 =>
    refine ⟨hs.run_le, hs.perm, ?_, ?_, ?_, ?_, ?_, ?_, ?_⟩
    · rintro (h | h) <;> cases h
    · intro hb; exact ⟨(hs.cancel_stop hb).1, Or.inr rfl⟩
    · intro _ hb; exact hs.drain_all (Or.inl h1) hb
    · intro _; exact h2
    · rintro h; cases h
    · intro e he
      rcases hs.err_phase e he with h | h <;> rw [h1] at h <;> cases h
    · intro _; exact hs.ret_none (by rw [h1]; rintro h; cases h)

theorem reachable_inv {P : OrchParams} {s : OState}
    (h : Reachable P s) : Inv P s := by
  induction h with
  | init => exact inv_init P
  | step _ hstep ih => exact inv_step ih hstep

/-- Once the run is draining (or finished), no step admits a further
task: the admission position, the drained status and the
cancellation-stop flag are frozen. -/
theorem step_frozen {P : OrchParams} {s t : OState} (h : Step P s t)
    (hp : s.phase = .draining ∨ s.phase = .finished) :
    t.nextIdx = s.nextIdx ∧ (t.phase = .draining ∨ t.phase = .finished) ∧
      t.stoppedByCancel = s.stoppedByCancel := by
  cases h with
  | expire => exact ⟨rfl, hp, rfl⟩
  | listOk repos h1 h2 =>
    rcases hp with h | h <;> rw [h1] at h <;> cases h
  | listFatal e h1 h2 =>
    rcases hp with h | h <;> rw [h1] at h <;> cases h
  | checkPass h1 h2 h3 =>
    rcases hp with h | h <;> rw [h1] at h <;> cases h
  | checkCancel h1 h2 h3 =>
    rcases hp with h | h <;> rw [h1] at h <;> cases h
  | loopDone h1 h2 =>
    rcases hp with h | h <;> rw [h1] at h <;> cases h
  | acquire h1 h2 =>
    rcases hp with h | h <;> rw [h1] at h <;> cases h
  | complete i hi =>
    have hph : (completeState P s i).phase = s.phase := by
      unfold completeState; cases P.outcome i <;> rfl
    have hidx : (completeState P s i).nextIdx = s.nextIdx := by
      unfold completeState; cases P.outcome i <;> rfl
    have hstop : (completeState P s i).stoppedByCancel = s.stoppedByCancel := by
      unfold completeState; cases P.outcome i <;> rfl
    exact ⟨hidx, hph ▸ hp, hstop⟩
  | drainDone h1 h2 => exact ⟨rfl, Or.inr rfl, rfl⟩

theorem stepStar_frozen {P : OrchParams} {s t : OState} (h : StepStar P s t)
    (hp : s.phase = .draining ∨ s.phase = .finished) :
    t.nextIdx = s.nextIdx ∧ (t.phase = .draining ∨ t.phase = .finished) ∧
      t.stoppedByCancel = s.stoppedByCancel := by
  induction h with
  | refl => exact ⟨rfl, hp, rfl⟩
  | tail _ hstep ih =>
    obtain ⟨hidx, hph, hstop⟩ := ih
    obtain ⟨hidx2, hph2, hstop2⟩ := step_frozen hstep hph
    exact ⟨hidx2.trans hidx, hph2, hstop2.trans hstop⟩

/-- Concrete run parameters: listing succeeds with the empty list. -/
def P0 : OrchParams := ⟨.ok [], fun _ => default, ""⟩

/-- Concrete run parameters: listing fails with error `boom`. -/
def Perr : OrchParams := ⟨.error "boom", fun _ => default, ""⟩

/-- The final state of a run over the empty repository list. -/
def sFin : OState := ⟨.finished, 0, [], [], [], false, false, none⟩

/-- The state reached by the fatal listing-failure return. -/
def fatalState (e : String) : OState :=
  { initState with
      phase := .fatal,
      retErr := some ("list repos failed: " ++ e) }

theorem reachable_sFin : Reachable P0 sFin :=
  Reachable.step
    (Reachable.step
      (Reachable.step Reachable.init (Step.listOk _ [] rfl rfl))
      (Step.loopDone _ rfl rfl))
    (Step.drainDone _ rfl rfl)

/-- Claim C1: in every run whose admission loop was not stopped by
deadline expiry, the final failed-repository report together with the
successes accounts for exactly one outcome per listed descriptor (a
permutation of the admission indices `0..N-1`, so nothing is lost or
duplicated under any interleaving); if the admission loop observes the
expired deadline before admitting all descriptors, the report covers
exactly the descriptors admitted so far (fewer than `N`) and the
admission position never advances again. -/
theorem runMirror_outcome_accounting (P : OrchParams) :
    (∀ s, Reachable P s → s.phase = .finished → s.stoppedByCancel = false →
        (outcomes s).Perm (List.range P.N))
    ∧ (∀ s, Reachable P s → s.phase = .finished → s.stoppedByCancel = true →
        s.nextIdx < P.N ∧ (outcomes s).Perm (List.range s.nextIdx))
    ∧ (∀ s t, Reachable P s → s.stoppedByCancel = true → StepStar P s t →
        t.nextIdx = s.nextIdx ∧ t.stoppedByCancel = true) := by
  refine ⟨?_, ?_, ?_⟩
  · intro s hr hf hb
    have hinv := reachable_inv hr
    have hN := hinv.drain_all (Or.inr hf) hb
    have hperm := hinv.perm
    rw [hinv.fin_run hf, List.append_nil] at hperm
    rw [← hN]
    exact hperm
  · intro s hr hf hb
    have hinv := reachable_inv hr
    have hperm := hinv.perm
    rw [hinv.fin_run hf, List.append_nil] at hperm
    exact ⟨(hinv.cancel_stop hb).1, hperm⟩
  · intro s t hr hb hstar
    have hinv := reachable_inv hr
    obtain ⟨hidx, _, hstop⟩ := stepStar_frozen hstar (hinv.cancel_stop hb).2
    exact ⟨hidx, hstop.trans hb⟩

theorem runMirror_outcome_accounting_witness :
    (outcomes sFin).Perm (List.range P0.N) :=
  (runMirror_outcome_accounting P0).1 sFin reachable_sFin rfl rfl

/-- Claim C2: the concurrency ceiling is 5 and in every reachable state
of every run at most `maxWorkers` tasks hold a pool slot; admission
(`Step.acquire`) is only enabled when a slot is free. -/
theorem runMirror_bounded_concurrency (P : OrchParams) :
    maxWorkers = 5 ∧ ∀ s, Reachable P s → s.running.length ≤ maxWorkers :=
  ⟨rfl, fun _ hr => (reachable_inv hr).run_le⟩

theorem runMirror_bounded_concurrency_witness :
    initState.running.length ≤ maxWorkers :=
  (runMirror_bounded_concurrency P0).2 initState Reachable.init

/-- Claim C3: the run returns an error exactly when the initial
`ListRepos` fails.  On listing failure the fatal return (with the
wrapped error) is reached, no state ever finishes normally, and no
task is admitted and no outcome recorded; once listing succeeds, no
reachable state is fatal and the return value stays nil regardless of
the task outcomes. -/
theorem runMirror_error_iff_listing (P : OrchParams) :
    (∀ e, P.listResult = .error e →
        Reachable P (fatalState e)
        ∧ ∀ s, Reachable P s →
            s.phase ≠ .finished ∧ s.nextIdx = 0 ∧ s.running = []
            ∧ s.doneFail = [] ∧ s.doneOk = []
            ∧ (s.phase = .fatal →
                s.retErr = some ("list repos failed: " ++ e)))
    ∧ (∀ repos, P.listResult = .ok repos →
        ∀ s, Reachable P s → s.phase ≠ .fatal ∧ s.retErr = none) := by
  constructor
  · intro e he
    constructor
    · exact Reachable.step Reachable.init (Step.listFatal _ e rfl he)
    · intro s hr
      have hinv := reachable_inv hr
      have hph := hinv.err_phase e he
      obtain ⟨hidx, hrun, hdf, hdo⟩ := hinv.pre_run hph
      refine ⟨?_, hidx, hrun, hdf, hdo, ?_⟩
      · rcases hph with h | h <;> rw [h] <;> rintro he2 <;> cases he2
      · intro hf
        obtain ⟨e2, he2, hret⟩ := hinv.fatal_err hf
        rw [he] at he2
        cases he2
        exact hret
  · intro repos hok s hr
    have hinv := reachable_inv hr
    have hnf : s.phase ≠ .fatal := by
      intro hf
      obtain ⟨e2, he2, _⟩ := hinv.fatal_err hf
      rw [hok] at he2
      cases he2
    exact ⟨hnf, hinv.ret_none hnf⟩

theorem runMirror_error_iff_listing_witness :
    Reachable Perr (fatalState "boom") :=
  ((runMirror_error_iff_listing Perr).1 "boom" rfl).1

theorem mirrorRepo_snd (env : TaskEnv) (repo : RepoImpl) (wd : String) :
    (mirrorRepo env repo wd).snd = (mirrorRepoBody env repo wd).snd := by
  unfold mirrorRepo
  rcases h : mirrorRepoBody env repo wd with ⟨r | p, tr⟩ <;> simp

theorem createRepo_mem (env : TaskEnv) (repo : RepoImpl) (wd n d : String)
    (p : Bool) (h : Effect.createRepo n d p ∈ (mirrorRepo env repo wd).snd) :
    n = repo.Path ∧ d = repo.Desc ∧ p = repo.Private
    ∧ env.isRepoExist = .ret (.ok false) := by
  rw [mirrorRepo_snd] at h
  rcases env with ⟨ctx, tn, sa, pa, ts, cr, ire, crr, pr⟩
  rcases ctx with _ | e0 <;>
  rcases cr with (_ | ce) | pc1 <;>
  rcases ire with (ee | b) | pc2 <;>
  rcases crr with (_ | cre) | pc3 <;>
  rcases pr with (_ | pe) | pc4 <;>
  simp only [mirrorRepoBody, pushPhase] at h <;>
  (try rcases b with _ | _) <;>
  (try split_ifs at h) <;>
  simp_all

theorem pushCmd_mem (env : TaskEnv) (repo : RepoImpl) (wd a dir : String)
    (h : Effect.pushCmd a dir ∈ (mirrorRepo env repo wd).snd) :
    env.pushAddr ≠ "" ∧ a = env.pushAddr := by
  rw [mirrorRepo_snd] at h
  rcases env with ⟨ctx, tn, sa, pa, ts, cr, ire, crr, pr⟩
  rcases ctx with _ | e0 <;>
  rcases cr with (_ | ce) | pc1 <;>
  rcases ire with (ee | b) | pc2 <;>
  rcases crr with (_ | cre) | pc3 <;>
  rcases pr with (_ | pe) | pc4 <;>
  simp only [mirrorRepoBody, pushPhase] at h <;>
  (try rcases b with _ | _) <;>
  (try split_ifs at h) <;>
  simp_all

theorem trace_no_removeDir (env : TaskEnv) (repo : RepoImpl) (wd d : String) :
    Effect.removeDir d ∉ (mirrorRepo env repo wd).snd := by
  rw [mirrorRepo_snd]
  rcases env with ⟨ctx, tn, sa, pa, ts, cr, ire, crr, pr⟩
  rcases ctx with _ | e0 <;>
  rcases cr with (_ | ce) | pc1 <;>
  rcases ire with (ee | b) | pc2 <;>
  rcases crr with (_ | cre) | pc3 <;>
  rcases pr with (_ | pe) | pc4 <;>
  simp only [mirrorRepoBody, pushPhase] <;>
  (try rcases b with _ | _) <;>
  (try split_ifs) <;>
  simp_all

theorem resolvePushAddr_mem_pushPhase (env : TaskEnv) (repo : RepoImpl)
    (dir : String) (tr : List Effect) :
    Effect.resolvePushAddr repo.Path ∈ (pushPhase env repo dir tr).snd := by
  unfold pushPhase
  rcases env.pushRun with (_ | pe) | pp <;> split_ifs <;> simp

theorem pushPhase_snd_of_ne (env : TaskEnv) (repo : RepoImpl)
    (dir : String) (tr : List Effect) (hpa : env.pushAddr ≠ "") :
    (pushPhase env repo dir tr).snd =
      tr ++ [Effect.resolvePushAddr repo.Path,
             Effect.pushCmd env.pushAddr dir] := by
  unfold pushPhase
  rcases env.pushRun with (_ | pe) | pp <;> simp [hpa]

theorem mirrorRepoBody_exists_true (env : TaskEnv) (repo : RepoImpl)
    (wd : String) (hctx : env.ctxErr = none)
    (hclone : env.cloneRun = .ret none)
    (hex : env.isRepoExist = .ret (.ok true)) :
    mirrorRepoBody env repo wd =
      pushPhase env repo (wd ++ "/" ++ repo.Path ++ "_" ++ env.timestamp)
        [Effect.cloneCmd (decide (env.targetName ≠ "local")) env.sourceAddr
           (wd ++ "/" ++ repo.Path ++ "_" ++ env.timestamp),
         Effect.existsCheck repo.Path] := by
  simp [mirrorRepoBody, hctx, hclone, hex]

/-- A concrete repository descriptor used for concrete evaluations. -/
def repoA : RepoImpl := ⟨"a", "g/a", "d", false⟩

/-- A task whose existence check panics with detail `boom`. -/
def envC4 : TaskEnv :=
  { ctxErr := none, targetName := "github", sourceAddr := "u", pushAddr := "p",
    timestamp := "t", cloneRun := .ret none, isRepoExist := .panicked "boom",
    createRepo := .ret none, pushRun := .ret none }

/-- Claim C4 counterexample: a task whose existence check panics with
detail `boom` yields the failure reason `mirror panic: boom`, not the
`internal fault: boom` stated by the claim. -/
theorem mirrorRepo_panic_reason_counterexample :
    (mirrorRepo envC4 repoA "wd").fst = some "mirror panic: boom"
    ∧ (mirrorRepo envC4 repoA "wd").fst ≠ some "internal fault: boom" :=
  ⟨by decide, by decide⟩

/-- Claim C4 (amended): an unexpected runtime fault inside a task is
caught by the deferred recover at the task boundary and converted into
a failure outcome whose reason is `mirror panic: <detail>` (rather than
the claimed `internal fault: <detail>`); no panic escapes `mirrorRepo`,
and recording a completed task's outcome only appends that task's own
entry, leaving every other task's recorded outcome unchanged. -/
theorem mirrorRepo_panic_caught (env : TaskEnv) (repo : RepoImpl)
    (wd p : String) (tr : List Effect)
    (h : mirrorRepoBody env repo wd = (.panicked p, tr)) :
    mirrorRepo env repo wd = (some ("mirror panic: " ++ p), tr)
    ∧ (∀ (P : OrchParams) (s : OState) (i : Nat),
        s.doneFail.Sublist (completeState P s i).doneFail
        ∧ s.doneOk.Sublist (completeState P s i).doneOk) := by
  constructor
  · unfold mirrorRepo
    rw [h]
  · intro P s i
    unfold completeState
    cases P.outcome i with
    | some r => exact ⟨List.sublist_append_left _ _, List.Sublist.refl _⟩
    | none => exact ⟨List.Sublist.refl _, List.sublist_append_left _ _⟩

theorem mirrorRepo_panic_caught_witness :
    mirrorRepo envC4 repoA "wd" =
      (some ("mirror panic: " ++ "boom"),
       [Effect.cloneCmd true "u" "wd/a_t", Effect.existsCheck "a"]) :=
  (mirrorRepo_panic_caught envC4 repoA "wd" "boom"
      [Effect.cloneCmd true "u" "wd/a_t", Effect.existsCheck "a"]
      (by decide)).1

/-- Claim C5: when the clone command fails with detail `d`, the task
fails with reason `clone failed: d`, and neither the target existence
check nor `CreateRepo` nor the push command is attempted. -/
theorem mirrorRepo_clone_failure (env : TaskEnv) (repo : RepoImpl)
    (wd d : String) (hctx : env.ctxErr = none)
    (hclone : env.cloneRun = .ret (some d)) :
    (mirrorRepo env repo wd).fst = some ("clone failed: " ++ d)
    ∧ (∀ n, Effect.existsCheck n ∉ (mirrorRepo env repo wd).snd)
    ∧ (∀ n ds p, Effect.createRepo n ds p ∉ (mirrorRepo env repo wd).snd)
    ∧ (∀ a dir, Effect.pushCmd a dir ∉ (mirrorRepo env repo wd).snd) := by
  have hbody : mirrorRepo env repo wd =
      (some ("clone failed: " ++ d),
       [Effect.cloneCmd (decide (env.targetName ≠ "local")) env.sourceAddr
          (wd ++ "/" ++ repo.Path ++ "_" ++ env.timestamp)]) := by
    simp [mirrorRepo, mirrorRepoBody, hctx, hclone]
  rw [hbody]
  refine ⟨rfl, ?_, ?_, ?_⟩ <;> intros <;> simp

/-- A task whose clone command exits non-zero. -/
def envC5 : TaskEnv :=
  { ctxErr := none, targetName := "github", sourceAddr := "u", pushAddr := "p",
    timestamp := "t", cloneRun := .ret (some "exit status 128"),
    isRepoExist := .ret (.ok true), createRepo := .ret none,
    pushRun := .ret none }

theorem mirrorRepo_clone_failure_witness :
    (mirrorRepo envC5 repoA "wd").fst =
      some ("clone failed: " ++ "exit status 128") :=
  (mirrorRepo_clone_failure envC5 repoA "wd" "exit status 128" rfl rfl).1

/-- Claim C6: when the target reports the repository exists,
`CreateRepo` is never invoked for it while the push step is still
reached; and, in any task at all, a `CreateRepo` invocation can occur
only when the existence check returned false. -/
theorem mirrorRepo_exists_skips_create (env : TaskEnv) (repo : RepoImpl)
    (wd : String) (hctx : env.ctxErr = none)
    (hclone : env.cloneRun = .ret none)
    (hex : env.isRepoExist = .ret (.ok true)) :
    (∀ n ds p, Effect.createRepo n ds p ∉ (mirrorRepo env repo wd).snd)
    ∧ Effect.resolvePushAddr repo.Path ∈ (mirrorRepo env repo wd).snd
    ∧ (∀ (env2 : TaskEnv) (repo2 : RepoImpl) (wd2 n ds : String) (p : Bool),
        Effect.createRepo n ds p ∈ (mirrorRepo env2 repo2 wd2).snd →
        env2.isRepoExist = .ret (.ok false)) := by
  refine ⟨?_, ?_, ?_⟩
  · intro n ds p hmem
    have h1 := (createRepo_mem env repo wd n ds p hmem).2.2.2
    rw [hex] at h1
    simp at h1
  · rw [mirrorRepo_snd, mirrorRepoBody_exists_true env repo wd hctx hclone hex]
    exact resolvePushAddr_mem_pushPhase env repo _ _
  · intro env2 repo2 wd2 n ds p hmem
    exact (createRepo_mem env2 repo2 wd2 n ds p hmem).2.2.2

/-- A task whose target reports the repository already exists. -/
def envC6 : TaskEnv :=
  { ctxErr := none, targetName := "github", sourceAddr := "u", pushAddr := "p",
    timestamp := "t", cloneRun := .ret none, isRepoExist := .ret (.ok true),
    createRepo := .ret none, pushRun := .ret none }

theorem mirrorRepo_exists_skips_create_witness :
    Effect.resolvePushAddr repoA.Path ∈ (mirrorRepo envC6 repoA "wd").snd :=
  (mirrorRepo_exists_skips_create envC6 repoA "wd" rfl rfl rfl).2.1

/-- A task whose clone process is killed by deadline expiry. -/
def envC7 : TaskEnv :=
  { ctxErr := none, targetName := "github", sourceAddr := "u", pushAddr := "p",
    timestamp := "t", cloneRun := .ret (some "signal: killed"),
    isRepoExist := .ret (.ok true), createRepo := .ret none,
    pushRun := .ret none }

/-- Claim C7 counterexample: a clone invocation killed on deadline
expiry (its `cmd.Run` error is `signal: killed`) surfaces as a task
outcome with reason `clone failed: signal: killed`, not the claimed
`cancelled: deadline exceeded`. -/
theorem mirrorRepo_cancel_reason_counterexample :
    (mirrorRepo envC7 repoA "wd").fst = some "clone failed: signal: killed"
    ∧ (mirrorRepo envC7 repoA "wd").fst ≠ some "cancelled: deadline exceeded" :=
  ⟨by decide, by decide⟩

/-- Claim C7 (amended): when the global deadline interrupts a task, the
task fails terminally but with a wrapped reason, not the claimed
`cancelled: deadline exceeded`: expiry observed before the task starts
yields `context cancelled before starting: <detail>`; a killed clone
yields `clone failed: <detail>`; a killed push yields
`push failed: <detail>` (each `<detail>` being the underlying error).
A cancelled task is terminal and never requeued: the recorded outcomes
of a run never contain the same admitted task twice. -/
theorem mirrorRepo_cancellation_wrapped (env : TaskEnv) (repo : RepoImpl)
    (wd c d : String) :
    (env.ctxErr = some c →
        (mirrorRepo env repo wd).fst =
          some ("context cancelled before starting: " ++ c))
    ∧ (env.ctxErr = none → env.cloneRun = .ret (some d) →
        (mirrorRepo env repo wd).fst = some ("clone failed: " ++ d))
    ∧ (env.ctxErr = none → env.cloneRun = .ret none →
        env.isRepoExist = .ret (.ok true) → env.pushAddr ≠ "" →
        env.pushRun = .ret (some d) →
        (mirrorRepo env repo wd).fst = some ("push failed: " ++ d))
    ∧ (∀ (P : OrchParams) (s : OState), Reachable P s →
        (outcomes s).Nodup) := by
  refine ⟨?_, ?_, ?_, ?_⟩
  · intro hc
    simp [mirrorRepo, mirrorRepoBody, hc]
  · intro hc hcl
    simp [mirrorRepo, mirrorRepoBody, hc, hcl]
  · intro hc hcl hex hpa hpr
    simp [mirrorRepo, mirrorRepoBody, pushPhase, hc, hcl, hex, hpa, hpr]
  · intro P s hr
    have hnd : (outcomes s ++ s.running).Nodup :=
      ((reachable_inv hr).perm.nodup_iff).mpr (List.nodup_range _)
    exact hnd.of_append_left

theorem mirrorRepo_cancellation_wrapped_witness :
    (mirrorRepo envC7 repoA "wd").fst =
      some ("clone failed: " ++ "signal: killed") :=
  (mirrorRepo_cancellation_wrapped envC7 repoA "wd" "c" "signal: killed").2.1
    rfl rfl

/-- A successful task against a non-"local" target. -/
def envC8 : TaskEnv :=
  { ctxErr := none, targetName := "github", sourceAddr := "u", pushAddr := "p",
    timestamp := "t", cloneRun := .ret none, isRepoExist := .ret (.ok true),
    createRepo := .ret none, pushRun := .ret none }

/-- Claim C8 counterexample: a task for a non-"local" target completes
successfully, yet its trace contains no directory removal at all - the
scratch workspace directory is not deleted before the task completes. -/
theorem mirrorRepo_no_task_cleanup_counterexample :
    (mirrorRepo envC8 repoA "wd").fst = none
    ∧ envC8.targetName ≠ "local"
    ∧ ((mirrorRepo envC8 repoA "wd").snd.all fun e => !e.isRemoveDir) = true :=
  ⟨by decide, by decide, by decide⟩

/-- Claim C8 (amended): no task ever deletes its scratch directory on
any exit path; instead `main` performs one run-level cleanup after a
non-fatal run, deleting the root work directory exactly when the target
type is not "local", and deletes nothing when the run failed fatally. -/
theorem workspace_cleanup_run_level (targetType wd : String) (env : TaskEnv)
    (repo : RepoImpl) (wd2 d : String) :
    Effect.removeDir d ∉ (mirrorRepo env repo wd2).snd
    ∧ mainCleanup targetType wd true = []
    ∧ (targetType ≠ "local" →
        mainCleanup targetType wd false = [Effect.removeDir wd])
    ∧ (targetType = "local" → mainCleanup targetType wd false = []) := by
  refine ⟨trace_no_removeDir env repo wd2 d, rfl, ?_, ?_⟩
  · intro h
    simp [mainCleanup, h]
  · intro h
    simp [mainCleanup, h]

theorem workspace_cleanup_run_level_witness :
    mainCleanup "github" "w" false = [Effect.removeDir "w"] :=
  (workspace_cleanup_run_level "github" "w" envC8 repoA "wd" "x").2.2.1
    (by decide)

/-- Claim C9: when the resolved push address is empty (as
`Local.GetRepoAddr` always returns), a task whose earlier steps succeed
completes successfully without invoking the push command; and in any
task at all the push command is invoked only when the resolved address
is non-empty, and with exactly that address. -/
theorem mirrorRepo_empty_push_addr (env : TaskEnv) (repo : RepoImpl)
    (wd : String) (hctx : env.ctxErr = none)
    (hclone : env.cloneRun = .ret none)
    (hex : env.isRepoExist = .ret (.ok true)) :
    (env.pushAddr = "" →
        (mirrorRepo env repo wd).fst = none
        ∧ ∀ a dir, Effect.pushCmd a dir ∉ (mirrorRepo env repo wd).snd)
    ∧ (env.pushAddr ≠ "" →
        Effect.pushCmd env.pushAddr
            (wd ++ "/" ++ repo.Path ++ "_" ++ env.timestamp)
          ∈ (mirrorRepo env repo wd).snd)
    ∧ (∀ (env2 : TaskEnv) (repo2 : RepoImpl) (wd2 a dir : String),
        Effect.pushCmd a dir ∈ (mirrorRepo env2 repo2 wd2).snd →
        env2.pushAddr ≠ "" ∧ a = env2.pushAddr)
    ∧ (∀ n, Local.GetRepoAddr n = "") := by
  refine ⟨?_, ?_, ?_, fun n => rfl⟩
  · intro hpa
    have hb : mirrorRepo env repo wd =
        (none,
         [Effect.cloneCmd (decide (env.targetName ≠ "local")) env.sourceAddr
            (wd ++ "/" ++ repo.Path ++ "_" ++ env.timestamp),
          Effect.existsCheck repo.Path,
          Effect.resolvePushAddr repo.Path]) := by
      simp [mirrorRepo, mirrorRepoBody, pushPhase, hctx, hclone, hex, hpa]
    rw [hb]
    refine ⟨rfl, ?_⟩
    intro a dir
    simp
  · intro hpa
    rw [mirrorRepo_snd, mirrorRepoBody_exists_true env repo wd hctx hclone hex,
      pushPhase_snd_of_ne env repo _ _ hpa]
    simp
  · intro env2 repo2 wd2 a dir hmem
    exact pushCmd_mem env2 repo2 wd2 a dir hmem

/-- A task against the local target: its push address is
`Local.GetRepoAddr`, hence empty. -/
def envC9 : TaskEnv :=
  { ctxErr := none, targetName := Local.Name, sourceAddr := "u",
    pushAddr := Local.GetRepoAddr "a", timestamp := "t",
    cloneRun := .ret none, isRepoExist := .ret (.ok true),
    createRepo := .ret none, pushRun := .ret none }

theorem mirrorRepo_empty_push_addr_witness :
    (mirrorRepo envC9 repoA "wd").fst = none :=
  ((mirrorRepo_empty_push_addr envC9 repoA "wd" rfl rfl rfl).1 rfl).1

/-- Claim C10: every descriptor produced by the Enterprise Gitee v8
listing has `private = true` regardless of the `Public` field of the
provider response, and consequently any `CreateRepo` a task issues for
such a descriptor creates the target repository private. -/
theorem eGiteeV8_descriptors_private (rs : List EGiteeRepo) :
    (∀ r, r ∈ eGiteeV8ListReposResult rs → r.Private = true)
    ∧ (∀ (env : TaskEnv) (wd : String) (repo : RepoImpl),
        repo ∈ eGiteeV8ListReposResult rs →
        ∀ n d p, Effect.createRepo n d p ∈ (mirrorRepo env repo wd).snd →
          p = true) := by
  have hpriv : ∀ r, r ∈ eGiteeV8ListReposResult rs → r.Private = true := by
    intro r hr
    simp only [eGiteeV8ListReposResult, List.mem_map] at hr
    obtain ⟨g, _, rfl⟩ := hr
    rfl
  refine ⟨hpriv, ?_⟩
  intro env wd repo hrepo n d p hmem
  have h1 := (createRepo_mem env repo wd n d p hmem).2.2.1
  rw [h1, hpriv repo hrepo]

/-- A provider response whose repository is public (`Public = 1`). -/
def rsGitee : List EGiteeRepo := [⟨"n", "a", "g/a", 1, "d"⟩]

theorem eGiteeV8_descriptors_private_witness :
    (NewRepo "a" "g/a" "d" true).Private = true :=
  (eGiteeV8_descriptors_private rsGitee).1 (NewRepo "a" "g/a" "d" true)
    (by decide)

end MirrorGit
